import Mathlib

/-!
Verification development for `monai/engines/workflow.py` (the `Workflow`
class): a shallow embedding of the constructor, the built-in
`post_epoch_process` best-metric callback, and the `_run` entry point,
together with theorems settling the specified properties.

Modelling conventions:
* Python's dynamic typing of constructor arguments is captured by `DynVal`
  (the constructor asserts `isinstance` on `device`, `max_epochs` and
  `data_loader`).
* A Python `dict` is an insertion-ordered association list; metric objects
  and handlers are opaque and identified by `Nat` ids.
* Metric values and the `State` integer fields are `Int`; console output
  (`print`) is modelled as an explicit list of emitted strings.
* Failures raised during construction (`assert` → `AssertionError`,
  `list(d.keys())[0]` on an empty dict → `IndexError`) are the `Except`
  error branch.
-/

set_option autoImplicit false

namespace MonaiWorkflow

/-- A dynamically typed Python value, as far as the constructor's
`isinstance` checks can tell arguments apart: a `torch.device` (named), an
`int`, a `torch.utils.data.DataLoader` (carrying its batches, each batch an
opaque id), or any other object. -/
inductive DynVal where
  | device : String → DynVal
  | int : Int → DynVal
  | dataLoader : List Nat → DynVal
  | other : String → DynVal
deriving DecidableEq, Repr, Inhabited

/-- A value passed as `key_metric` / `additional_metrics`: either a Python
`dict` mapping metric names to opaque metric-object ids (insertion order
preserved, keys unique as in any `dict`), or a non-dict value together with
its `len()` (the source calls `len(additional_metrics)` before asserting it
is a dict). -/
inductive MetricsArg where
  | dict : List (String × Nat) → MetricsArg
  | notDict : String → Nat → MetricsArg
deriving DecidableEq, Repr, Inhabited

/-- An exception escaping `Workflow.__init__`: a failed `assert` with its
message, or the `IndexError` from `list(key_metric.keys())[0]` on an empty
dict. -/
inductive InitError where
  | assertError : String → InitError
  | indexError : InitError
deriving DecidableEq, Repr, Inhabited

/-- The shared run state, mirroring the `ignite.engine.State(...)` literal
built in `Workflow.__init__` (fields `seed=0, iteration=0, epoch=0,
max_epochs=max_epochs, epoch_length=-1, output=None, batch=None,
metrics={}, device=device, amp=amp, key_metric_name=None, best_metric=-1,
best_metric_epoch=-1`). -/
structure RunState where
  seed : Int
  iteration : Int
  epoch : Int
  max_epochs : Int
  epoch_length : Int
  output : Option Int
  batch : Option Int
  metrics : List (String × Int)
  device : String
  amp : Bool
  key_metric_name : Option String
  best_metric : Int
  best_metric_epoch : Int
deriving DecidableEq, Repr, Inhabited

/-- A callback registered on one of the engine's events: a metric object's
per-iteration `update`, a metric object's per-epoch `compute` (both added by
`metric.attach(engine, name)`), or the built-in `post_epoch_process`
best-metric tracker added by `@engine.on(Events.EPOCH_COMPLETED)`. -/
inductive Callback where
  | metricUpdate : String → Nat → Callback
  | metricCompute : String → Nat → Callback
  | postEpochProcess : Callback
deriving DecidableEq, Repr, Inhabited

/-- The ignite engine as the constructor configures it: the shared state and
the ordered registration lists for the two events the constructor registers
callbacks on (`ITERATION_COMPLETED` and `EPOCH_COMPLETED`); dispatch invokes
a list's callbacks in order. -/
structure Engine where
  state : RunState
  iteration_completed_cbs : List Callback
  epoch_completed_cbs : List Callback
deriving DecidableEq, Repr, Inhabited

/-- The constructed `Workflow` object: its engine, the stored data loader,
plus the observable effects of construction — the `metric.attach` call log
(name, metric id) in call order, the `handler.attach(engine)` call log in
call order, and the console lines printed. -/
structure Workflow where
  engine : Engine
  data_loader : List Nat
  attached_metrics : List (String × Nat)
  handler_attach_log : List Nat
  printed : List String
deriving DecidableEq, Repr, Inhabited

/-- Python `d[k]` on an association-list dict: the value at the first
matching key, if any. -/
def dictLookup {α : Type} (k : String) : List (String × α) → Option α
  | [] => none
  | (k', v) :: rest => if k' = k then some v else dictLookup k rest

/-- One step of Python `dict.update`: if the key is present, replace its
value in place (a `dict` holds each key once, so replacing the first
occurrence is exact); otherwise append the new pair at the end. -/
def dictInsert {α : Type} : List (String × α) → String → α → List (String × α)
  | [], k, v => [(k, v)]
  | (k', v') :: rest, k, v =>
    if k' = k then (k', v) :: rest else (k', v') :: dictInsert rest k v

/-- Python `base.update(upd)`: fold every pair of `upd`, in iteration order,
into `base`. -/
def dictUpdate {α : Type} (base upd : List (String × α)) : List (String × α) :=
  upd.foldl (fun acc kv => dictInsert acc kv.1 kv.2) base

/-- Modelled from the spec: `metric.attach(engine, name)` for an ignite
metric object (ignite is outside `src/`). Per §4.2, a metric registers its
`update` callback on `ITERATION_COMPLETED` and its `compute` callback on
`EPOCH_COMPLETED`; registration appends to the event's ordered list. -/
def Metric.attach (e : Engine) (name : String) (metricId : Nat) : Engine :=
  { e with
    iteration_completed_cbs :=
      e.iteration_completed_cbs ++ [Callback.metricUpdate name metricId]
    epoch_completed_cbs :=
      e.epoch_completed_cbs ++ [Callback.metricCompute name metricId] }

/-- The console line printed by `Workflow.__init__` when `amp` is true. -/
def ampMsg : String := "Will add AMP support when PyTorch v1.6 released."

/-- `Workflow.__init__`, translated clause by clause from the source:
`if amp: print(...)`; the three `isinstance` asserts on `device`,
`max_epochs`, `data_loader`; build the `Engine` and its `State`; if
`key_metric` is given, assert it is a dict, take `list(keys())[0]` as
`key_metric_name` (raising `IndexError` on an empty dict), merge
`additional_metrics` into it when that argument is non-`None` and non-empty
(asserting it is a dict), attach every metric of the merged set in order,
then register `post_epoch_process` on `EPOCH_COMPLETED`; finally call
`handler.attach(engine)` on each handler in sequence order (an empty or
`None` handler argument attaches nothing). -/
def Workflow.init (device : DynVal) (max_epochs : DynVal) (amp : Bool)
    (data_loader : DynVal) (key_metric : Option MetricsArg)
    (additional_metrics : Option MetricsArg)
    (handlers : Option (List Nat)) : Except InitError Workflow :=
  let printed := if amp then [ampMsg] else []
  match device with
  | DynVal.device devName =>
    match max_epochs with
    | DynVal.int me =>
      match data_loader with
      | DynVal.dataLoader dl =>
        let st : RunState :=
          { seed := 0, iteration := 0, epoch := 0, max_epochs := me
            epoch_length := -1, output := none, batch := none
            metrics := [], device := devName, amp := amp
            key_metric_name := none, best_metric := -1
            best_metric_epoch := -1 }
        let engine : Engine :=
          { state := st, iteration_completed_cbs := []
            epoch_completed_cbs := [] }
        match key_metric with
        | none =>
          Except.ok
            { engine := engine, data_loader := dl, attached_metrics := []
              handler_attach_log := handlers.getD [], printed := printed }
        | some (MetricsArg.notDict _ _) =>
          Except.error (InitError.assertError "key_metric must be a dict object.")
        | some (MetricsArg.dict []) => Except.error InitError.indexError
        | some (MetricsArg.dict ((k0, m0) :: kmRest)) =>
          let engine :=
            { engine with
              state := { engine.state with key_metric_name := some k0 } }
          match additional_metrics with
          | some (MetricsArg.notDict _ (_ + 1)) =>
            Except.error
              (InitError.assertError "additional_metrics must be a dict object.")
          | am =>
            let metrics :=
              match am with
              | some (MetricsArg.dict aes) => dictUpdate ((k0, m0) :: kmRest) aes
              | _ => (k0, m0) :: kmRest
            let engine :=
              metrics.foldl (fun e p => Metric.attach e p.1 p.2) engine
            let engine :=
              { engine with
                epoch_completed_cbs :=
                  engine.epoch_completed_cbs ++ [Callback.postEpochProcess] }
            Except.ok
              { engine := engine, data_loader := dl
                attached_metrics := metrics
                handler_attach_log := handlers.getD [], printed := printed }
      | _ => Except.error (InitError.assertError "data_loader must be PyTorch DataLoader.")
    | _ => Except.error (InitError.assertError "must set max epoch number.")
  | _ => Except.error (InitError.assertError "must provide PyTorch device information.")

/-- The exception escaping `post_epoch_process`: the `KeyError` from
`engine.state.metrics[engine.state.key_metric_name]` when the key metric was
never written into `state.metrics`. -/
inductive RunError where
  | keyError : String → RunError
deriving DecidableEq, Repr, Inhabited

/-- The built-in `post_epoch_process` callback, from the source: if a key
metric name is set, read `state.metrics[key_metric_name]` (raising
`KeyError` if absent); when the value is strictly greater than
`state.best_metric`, print the announcement and set `best_metric` to the
value and `best_metric_epoch` to the current epoch; otherwise leave the
state untouched. Returns the updated state and the printed lines. -/
def post_epoch_process (s : RunState) : Except RunError (RunState × List String) :=
  match s.key_metric_name with
  | none => Except.ok (s, [])
  | some k =>
    match dictLookup k s.metrics with
    | none => Except.error (RunError.keyError k)
    | some v =>
      if v > s.best_metric then
        Except.ok
          ({ s with best_metric := v, best_metric_epoch := s.epoch },
            ["Got new best metric of " ++ k ++ ": " ++ toString v])
      else Except.ok (s, [])

/-- The engine's lifecycle event kinds (§4.1). -/
inductive Event where
  | STARTED
  | EPOCH_STARTED
  | ITERATION_STARTED
  | ITERATION_COMPLETED
  | EPOCH_COMPLETED
  | COMPLETED
  | EXCEPTION_RAISED
deriving DecidableEq, Repr, Inhabited

/-- Modelled from the spec: the per-batch loop of one epoch inside ignite's
`Engine.run` (ignite is outside `src/`). For each batch: fire
`ITERATION_STARTED`, invoke the abstract iteration operation, fire
`ITERATION_COMPLETED` (§4.5 step 5). The trace records every event paired
with the state as the event fires. -/
def iterLoop (it : RunState → Nat → RunState) (s : RunState) :
    List Nat → RunState × List (Event × RunState)
  | [] => (s, [])
  | b :: rest =>
    let s' := it s b
    let r := iterLoop it s' rest
    (r.1, (Event.ITERATION_STARTED, s) :: (Event.ITERATION_COMPLETED, s') :: r.2)

/-- Modelled from the spec: one epoch of ignite's `Engine.run`. Increment
the 1-based epoch counter, fire `EPOCH_STARTED`, run the batch loop, fire
`EPOCH_COMPLETED` (§4.5 step 5). -/
def epochTrace (it : RunState → Nat → RunState) (s : RunState)
    (batches : List Nat) : RunState × List (Event × RunState) :=
  let s1 := { s with epoch := s.epoch + 1 }
  let r := iterLoop it s1 batches
  (r.1, (Event.EPOCH_STARTED, s1) :: (r.2 ++ [(Event.EPOCH_COMPLETED, r.1)]))

/-- Modelled from the spec: the epoch loop of ignite's `Engine.run`, running
the given number of epochs (§4.5 step 5). -/
def epochLoop (it : RunState → Nat → RunState) (data : List Nat) :
    Nat → RunState → RunState × List (Event × RunState)
  | 0, s => (s, [])
  | n + 1, s =>
    let r1 := epochTrace it s data
    let r2 := epochLoop it data n r1.1
    (r2.1, r1.2 ++ r2.2)

/-- Modelled from the spec: ignite's `Engine.run(data, epoch_length=...)`
(ignite is outside `src/`). Store the passed `epoch_length` into the state,
fire `STARTED`, run `max_epochs` epochs, fire `COMPLETED` (§4.5 steps 3-6).
The abstract iteration operation `it` is the subclass-supplied
`_iteration`. -/
def engineRun (it : RunState → Nat → RunState) (s : RunState)
    (data : List Nat) (el : Int) : List (Event × RunState) :=
  let s0 := { s with epoch_length := el }
  let r := epochLoop it data s0.max_epochs.toNat s0
  (Event.STARTED, s0) :: (r.2 ++ [(Event.COMPLETED, r.1)])

/-- `Workflow._run`, from the source: reset `engine.state.iteration = 0`,
then `engine.run(data=self.data_loader, epoch_length=len(self.data_loader))`. -/
def Workflow.run (w : Workflow) (it : RunState → Nat → RunState) :
    List (Event × RunState) :=
  let s := { w.engine.state with iteration := 0 }
  engineRun it s w.data_loader (Int.ofNat w.data_loader.length)

/-- `true` iff the construction attempt returned a `Workflow` rather than
raising. -/
def initOk (r : Except InitError Workflow) : Bool :=
  match r with
  | Except.ok _ => true
  | Except.error _ => false

/-- A concrete `RunState` at the end of epoch 3, key metric `acc` freshly
computed to 7, current best 5 from epoch 1. -/
def trackerDemoState : RunState :=
  { seed := 0, iteration := 6, epoch := 3, max_epochs := 5, epoch_length := 2
    output := none, batch := none, metrics := [("acc", 7)], device := "cpu"
    amp := false, key_metric_name := some "acc", best_metric := 5
    best_metric_epoch := 1 }

/-- Erasing the effect of `amp` on the run state. -/
def RunState.setAmpFalse (s : RunState) : RunState := { s with amp := false }

/-- Erasing the two places `amp` can reach during construction: the stored
`RunState.amp` field and the console message. -/
def Workflow.stripAmpEffects (w : Workflow) : Workflow :=
  { w with
    engine := { w.engine with state := w.engine.state.setAmpFalse }
    printed := [] }

/-- A concretely constructed workflow (no metrics or handlers, two
batches), used to instantiate the hypothesis-bearing theorems. -/
def demoWorkflow : Workflow :=
  match Workflow.init (DynVal.device "cpu") (DynVal.int 2) false
      (DynVal.dataLoader [5, 6]) none none none with
  | Except.ok w => w
  | Except.error _ => default

/-- A concrete iteration operation: count the iteration, touch nothing
else. -/
def demoIt : RunState → Nat → RunState :=
  fun s _ => { s with iteration := s.iteration + 1 }

/-! ### Association-list dictionary lemmas -/

theorem dictLookup_dictInsert_self {α : Type} (acc : List (String × α))
    (k : String) (v : α) : dictLookup k (dictInsert acc k v) = some v := by
  induction acc with
  | nil => simp [dictInsert, dictLookup]
  | cons hd tl ih =>
    obtain ⟨k', v'⟩ := hd
    by_cases hk : k' = k
    · subst hk
      simp [dictInsert, dictLookup]
    · simp [dictInsert, dictLookup, hk, ih]

theorem dictLookup_dictInsert_ne {α : Type} (acc : List (String × α))
    (k k' : String) (v : α) (hne : k' ≠ k) :
    dictLookup k' (dictInsert acc k v) = dictLookup k' acc := by
  induction acc with
  | nil => simp [dictInsert, dictLookup, Ne.symm hne]
  | cons hd tl ih =>
    obtain ⟨k0, v0⟩ := hd
    by_cases hk : k0 = k
    · subst hk
      simp [dictInsert, dictLookup, Ne.symm hne]
    · simp only [dictInsert, if_neg hk, dictLookup]
      by_cases hk' : k0 = k'
      · simp [hk']
      · simp [hk', ih]

theorem dictLookup_dictUpdate_not_mem {α : Type} (base upd : List (String × α))
    (k : String) (hk : k ∉ upd.map Prod.fst) :
    dictLookup k (dictUpdate base upd) = dictLookup k base := by
  induction upd generalizing base with
  | nil => simp [dictUpdate]
  | cons hd tl ih =>
    obtain ⟨k0, v0⟩ := hd
    simp only [List.map_cons, List.mem_cons, not_or] at hk
    show dictLookup k (dictUpdate (dictInsert base k0 v0) tl) = dictLookup k base
    rw [ih (dictInsert base k0 v0) hk.2,
      dictLookup_dictInsert_ne base k0 k v0 hk.1]

theorem dictLookup_dictUpdate_mem {α : Type} (base upd : List (String × α))
    (k : String) (hk : k ∈ upd.map Prod.fst)
    (hnd : (upd.map Prod.fst).Nodup) :
    dictLookup k (dictUpdate base upd) = dictLookup k upd := by
  induction upd generalizing base with
  | nil => simp at hk
  | cons hd tl ih =>
    obtain ⟨k0, v0⟩ := hd
    simp only [List.map_cons, List.nodup_cons] at hnd
    by_cases hkk : k = k0
    · subst hkk
      show dictLookup k (dictUpdate (dictInsert base k v0) tl) = _
      rw [dictLookup_dictUpdate_not_mem (dictInsert base k v0) tl k hnd.1,
        dictLookup_dictInsert_self]
      simp [dictLookup]
    · have hk' : k ∈ tl.map Prod.fst := by
        simp only [List.map_cons, List.mem_cons] at hk
        exact hk.resolve_left hkk
      show dictLookup k (dictUpdate (dictInsert base k0 v0) tl) = _
      rw [ih (dictInsert base k0 v0) hk' hnd.2]
      simp [dictLookup, Ne.symm hkk]

/-- Folding `Metric.attach` over a metric set appends, in order, one
`metricUpdate` per metric to `ITERATION_COMPLETED` and one `metricCompute`
per metric to `EPOCH_COMPLETED`, and leaves the state untouched. -/
theorem attach_foldl_eq (ms : List (String × Nat)) (e : Engine) :
    ms.foldl (fun e p => Metric.attach e p.1 p.2) e =
      { state := e.state
        iteration_completed_cbs := e.iteration_completed_cbs ++
          ms.map (fun p => Callback.metricUpdate p.1 p.2)
        epoch_completed_cbs := e.epoch_completed_cbs ++
          ms.map (fun p => Callback.metricCompute p.1 p.2) } := by
  induction ms generalizing e with
  | nil => simp
  | cons hd tl ih =>
    obtain ⟨nm, mid⟩ := hd
    rw [List.foldl_cons, ih]
    simp [Metric.attach, List.append_assoc]

/-- `metric.attach` never touches the state. -/
theorem Metric.attach_state (e : Engine) (name : String) (metricId : Nat) :
    (Metric.attach e name metricId).state = e.state := rfl

/-- Attaching a whole metric set never touches the state. -/
theorem attach_foldl_state (ms : List (String × Nat)) (e : Engine) :
    (ms.foldl (fun e p => Metric.attach e p.1 p.2) e).state = e.state := by
  rw [attach_foldl_eq]

/-- Attaching a whole metric set appends exactly its `compute` callbacks,
in order, to `EPOCH_COMPLETED`. -/
theorem attach_foldl_epoch_cbs (ms : List (String × Nat)) (e : Engine) :
    (ms.foldl (fun e p => Metric.attach e p.1 p.2) e).epoch_completed_cbs =
      e.epoch_completed_cbs ++
        ms.map (fun p => Callback.metricCompute p.1 p.2) := by
  rw [attach_foldl_eq]

/-! ### Claim theorems -/

/-- C1: after each epoch's `EPOCH_COMPLETED` firing, with a key metric
configured and its value `v` freshly computed into
`RunState.metrics[key_metric_name]`: if `v` is strictly greater than
`best_metric`, the tracker sets `best_metric := v` and
`best_metric_epoch := epoch`; if `v` is equal to or lower than
`best_metric`, the state is returned unchanged (nothing printed either). -/
theorem post_epoch_process_strict_improvement (s : RunState) (k : String)
    (v : Int) (hk : s.key_metric_name = some k)
    (hv : dictLookup k s.metrics = some v) :
    (s.best_metric < v →
      post_epoch_process s =
        Except.ok ({ s with best_metric := v, best_metric_epoch := s.epoch },
          ["Got new best metric of " ++ k ++ ": " ++ toString v])) ∧
    (v ≤ s.best_metric → post_epoch_process s = Except.ok (s, [])) := by
  constructor
  · intro hlt
    simp [post_epoch_process, hk, hv, hlt]
  · intro hle
    simp [post_epoch_process, hk, hv, not_lt.mpr hle]

theorem post_epoch_process_strict_improvement_witness :
    trackerDemoState.key_metric_name = some "acc" ∧
    dictLookup "acc" trackerDemoState.metrics = some 7 ∧
    ((trackerDemoState.best_metric < 7 →
        post_epoch_process trackerDemoState =
          Except.ok
            ({ trackerDemoState with best_metric := 7, best_metric_epoch := trackerDemoState.epoch },
              ["Got new best metric of " ++ "acc" ++ ": " ++ toString (7 : Int)])) ∧
      (7 ≤ trackerDemoState.best_metric →
        post_epoch_process trackerDemoState = Except.ok (trackerDemoState, []))) :=
  ⟨rfl, rfl, post_epoch_process_strict_improvement trackerDemoState "acc" 7 rfl rfl⟩

/-- C3 counterexample: `max_epochs = 0` is an integer that is not ≥ 1, yet
the constructor succeeds — the source only asserts
`isinstance(max_epochs, int)` and never checks positivity. -/
theorem init_accepts_nonpositive_max_epochs :
    initOk (Workflow.init (DynVal.device "cuda") (DynVal.int 0) false
      (DynVal.dataLoader []) none none none) = true := rfl

/-- C3 amended: construction validates only the type of `max_epochs`: every
construction attempt whose `max_epochs` argument is not an integer fails
fast with a configuration error before any run starts (integer values,
including zero and negatives, are accepted without a positivity check). -/
theorem init_rejects_non_integer_max_epochs (device me : DynVal) (amp : Bool)
    (dl : DynVal) (km am : Option MetricsArg) (hs : Option (List Nat))
    (h : ∀ n : Int, me ≠ DynVal.int n) :
    initOk (Workflow.init device me amp dl km am hs) = false := by
  cases device with
  | device d =>
    cases me with
    | int n => exact absurd rfl (h n)
    | device x => simp [Workflow.init, initOk]
    | dataLoader x => simp [Workflow.init, initOk]
    | other x => simp [Workflow.init, initOk]
  | int n => simp [Workflow.init, initOk]
  | dataLoader x => simp [Workflow.init, initOk]
  | other x => simp [Workflow.init, initOk]

theorem init_rejects_non_integer_max_epochs_witness :
    (∀ n : Int, DynVal.other "None" ≠ DynVal.int n) ∧
    initOk (Workflow.init (DynVal.device "cuda") (DynVal.other "None") false
      (DynVal.dataLoader []) none none none) = false :=
  ⟨fun _ h => DynVal.noConfusion h,
    init_rejects_non_integer_max_epochs _ _ _ _ _ _ _
      (fun _ h => DynVal.noConfusion h)⟩

/-- C4: whenever `key_metric` is provided but is not a non-empty
name→metric dict (a non-dict value, or the empty dict), construction fails
before any run starts: a non-dict fails the `isinstance` assert, and the
empty dict raises `IndexError` at `list(key_metric.keys())[0]`. -/
theorem init_rejects_invalid_key_metric (device me : DynVal) (amp : Bool)
    (dl : DynVal) (km : MetricsArg) (am : Option MetricsArg)
    (hs : Option (List Nat))
    (hkm : ∀ entries, km = MetricsArg.dict entries → entries = []) :
    initOk (Workflow.init device me amp dl (some km) am hs) = false := by
  cases device with
  | device d =>
    cases me with
    | int n =>
      cases dl with
      | dataLoader l =>
        cases km with
        | notDict tag len => simp [Workflow.init, initOk]
        | dict entries =>
          cases entries with
          | nil => simp [Workflow.init, initOk]
          | cons hd tlE => exact absurd (hkm _ rfl) (by simp)
      | device x => simp [Workflow.init, initOk]
      | int x => simp [Workflow.init, initOk]
      | other x => simp [Workflow.init, initOk]
    | device x => simp [Workflow.init, initOk]
    | dataLoader x => simp [Workflow.init, initOk]
    | other x => simp [Workflow.init, initOk]
  | int n => simp [Workflow.init, initOk]
  | dataLoader x => simp [Workflow.init, initOk]
  | other x => simp [Workflow.init, initOk]

theorem init_rejects_invalid_key_metric_witness :
    (∀ entries : List (String × Nat),
      MetricsArg.dict [] = MetricsArg.dict entries → entries = []) ∧
    initOk (Workflow.init (DynVal.device "cuda") (DynVal.int 2) false
      (DynVal.dataLoader []) (some (MetricsArg.dict [])) none none) = false :=
  ⟨fun _ h => by injection h with h2; exact h2.symm,
    init_rejects_invalid_key_metric _ _ _ _ _ _ _
      (fun _ h => by injection h with h2; exact h2.symm)⟩

/-- C5: when the `key_metric` dict holds more than one entry, construction
succeeds (no error for the extra entries, provided the remaining arguments
are valid) and the first key in the dict's iteration order becomes
`RunState.key_metric_name`. -/
theorem init_selects_first_key_metric (d : String) (n : Int) (amp : Bool)
    (l : List Nat) (k1 : String) (m1 : Nat) (k2 : String) (m2 : Nat)
    (rest : List (String × Nat)) (am : Option MetricsArg)
    (hs : Option (List Nat))
    (ham : ∀ tag len, am ≠ some (MetricsArg.notDict tag (len + 1))) :
    ∃ w, Workflow.init (DynVal.device d) (DynVal.int n) amp
        (DynVal.dataLoader l)
        (some (MetricsArg.dict ((k1, m1) :: (k2, m2) :: rest))) am hs =
        Except.ok w ∧
      w.engine.state.key_metric_name = some k1 := by
  cases am with
  | none =>
    refine ⟨_, rfl, ?_⟩
    simp [Workflow.init, attach_foldl_state, Metric.attach_state]
  | some ma =>
    cases ma with
    | dict aes =>
      refine ⟨_, rfl, ?_⟩
      simp [Workflow.init, attach_foldl_state, Metric.attach_state]
    | notDict tag len =>
      cases len with
      | zero =>
        refine ⟨_, rfl, ?_⟩
        simp [Workflow.init, attach_foldl_state, Metric.attach_state]
      | succ len2 => exact absurd rfl (ham tag len2)

theorem init_selects_first_key_metric_witness :
    (∀ tag len,
      (none : Option MetricsArg) ≠ some (MetricsArg.notDict tag (len + 1))) ∧
    (∃ w, Workflow.init (DynVal.device "cuda") (DynVal.int 2) false
        (DynVal.dataLoader [])
        (some (MetricsArg.dict [("a", 1), ("b", 2)])) none none =
        Except.ok w ∧
      w.engine.state.key_metric_name = some "a") :=
  ⟨fun _ _ h => Option.noConfusion h,
    init_selects_first_key_metric "cuda" 2 false [] "a" 1 "b" 2 [] none none
      (fun _ _ h => Option.noConfusion h)⟩

/-- C6: when the same name occurs in both `key_metric` and
`additional_metrics`, the working metric set is `metrics.update(...)` of the
two dicts, so the metric object subsequently attached under that name is the
one from `additional_metrics`; construction succeeds with no error. -/
theorem additional_metrics_overwrite_key_metric (d : String) (n : Int)
    (amp : Bool) (l : List Nat) (kms ams : List (String × Nat))
    (hs : Option (List Nat)) (name : String)
    (hk : name ∈ kms.map Prod.fst) (ha : name ∈ ams.map Prod.fst)
    (hnd : (ams.map Prod.fst).Nodup) :
    ∃ w, Workflow.init (DynVal.device d) (DynVal.int n) amp
        (DynVal.dataLoader l) (some (MetricsArg.dict kms))
        (some (MetricsArg.dict ams)) hs = Except.ok w ∧
      w.attached_metrics = dictUpdate kms ams ∧
      dictLookup name w.attached_metrics = dictLookup name ams := by
  cases kms with
  | nil => simp at hk
  | cons hd tl =>
    obtain ⟨k0, m0⟩ := hd
    exact ⟨_, rfl, rfl, dictLookup_dictUpdate_mem _ _ _ ha hnd⟩

theorem additional_metrics_overwrite_key_metric_witness :
    "a" ∈ ([("a", 1)] : List (String × Nat)).map Prod.fst ∧
    "a" ∈ ([("a", 9), ("c", 3)] : List (String × Nat)).map Prod.fst ∧
    (([("a", 9), ("c", 3)] : List (String × Nat)).map Prod.fst).Nodup ∧
    (∃ w, Workflow.init (DynVal.device "cuda") (DynVal.int 2) false
        (DynVal.dataLoader []) (some (MetricsArg.dict [("a", 1)]))
        (some (MetricsArg.dict [("a", 9), ("c", 3)])) none = Except.ok w ∧
      w.attached_metrics = dictUpdate [("a", 1)] [("a", 9), ("c", 3)] ∧
      dictLookup "a" w.attached_metrics = dictLookup "a" [("a", 9), ("c", 3)]) :=
  ⟨by decide, by decide, by decide,
    additional_metrics_overwrite_key_metric "cuda" 2 false [] [("a", 1)]
      [("a", 9), ("c", 3)] none "a" (by decide) (by decide) (by decide)⟩

/-- C7: whenever construction succeeds with a key metric configured, the
`EPOCH_COMPLETED` registration list is exactly the metric `compute`
callbacks (one per metric of the working set, attached first) followed by
the built-in best-metric tracker — so, with callbacks invoked in
registration order, every metric's `compute` runs before the tracker reads
`RunState.metrics[key_metric_name]` within the same event firing. -/
theorem tracker_registered_after_metric_computes (device me : DynVal)
    (amp : Bool) (dl : DynVal) (km : MetricsArg) (am : Option MetricsArg)
    (hs : Option (List Nat)) (w : Workflow)
    (h : Workflow.init device me amp dl (some km) am hs = Except.ok w) :
    ∃ cbs, w.engine.epoch_completed_cbs = cbs ++ [Callback.postEpochProcess] ∧
      ∀ c ∈ cbs, ∃ nm mid, c = Callback.metricCompute nm mid := by
  cases device with
  | device d =>
    cases me with
    | int n =>
      cases dl with
      | dataLoader l =>
        cases km with
        | notDict tag len => simp [Workflow.init] at h
        | dict entries =>
          cases entries with
          | nil => simp [Workflow.init] at h
          | cons hd tlE =>
            obtain ⟨k0, m0⟩ := hd
            cases am with
            | none =>
              simp only [Workflow.init] at h
              injection h with hw
              subst hw
              refine ⟨((k0, m0) :: tlE).map
                (fun p => Callback.metricCompute p.1 p.2), ?_, ?_⟩
              · simp only [attach_foldl_epoch_cbs]
                simp
              · intro c hc
                simp only [List.mem_map] at hc
                obtain ⟨p, _, rfl⟩ := hc
                exact ⟨p.1, p.2, rfl⟩
            | some ma =>
              cases ma with
              | dict aes =>
                simp only [Workflow.init] at h
                injection h with hw
                subst hw
                refine ⟨(dictUpdate ((k0, m0) :: tlE) aes).map
                  (fun p => Callback.metricCompute p.1 p.2), ?_, ?_⟩
                · simp only [attach_foldl_epoch_cbs]
                  simp
                · intro c hc
                  simp only [List.mem_map] at hc
                  obtain ⟨p, _, rfl⟩ := hc
                  exact ⟨p.1, p.2, rfl⟩
              | notDict tag len =>
                cases len with
                | zero =>
                  simp only [Workflow.init] at h
                  injection h with hw
                  subst hw
                  refine ⟨((k0, m0) :: tlE).map
                    (fun p => Callback.metricCompute p.1 p.2), ?_, ?_⟩
                  · simp only [attach_foldl_epoch_cbs]
                    simp
                  · intro c hc
                    simp only [List.mem_map] at hc
                    obtain ⟨p, _, rfl⟩ := hc
                    exact ⟨p.1, p.2, rfl⟩
                | succ len2 => simp [Workflow.init] at h
      | device x => simp [Workflow.init] at h
      | int x => simp [Workflow.init] at h
      | other x => simp [Workflow.init] at h
    | device x => simp [Workflow.init] at h
    | dataLoader x => simp [Workflow.init] at h
    | other x => simp [Workflow.init] at h
  | int x => simp [Workflow.init] at h
  | dataLoader x => simp [Workflow.init] at h
  | other x => simp [Workflow.init] at h

/-- The workflow built in the C7 witness. -/
def trackerDemoWorkflow : Workflow :=
  match Workflow.init (DynVal.device "cpu") (DynVal.int 2) false
      (DynVal.dataLoader [3]) (some (MetricsArg.dict [("acc", 0), ("loss", 1)]))
      none none with
  | Except.ok w => w
  | Except.error _ => default

theorem tracker_registered_after_metric_computes_witness :
    Workflow.init (DynVal.device "cpu") (DynVal.int 2) false
      (DynVal.dataLoader [3]) (some (MetricsArg.dict [("acc", 0), ("loss", 1)]))
      none none = Except.ok trackerDemoWorkflow ∧
    (∃ cbs, trackerDemoWorkflow.engine.epoch_completed_cbs =
        cbs ++ [Callback.postEpochProcess] ∧
      ∀ c ∈ cbs, ∃ nm mid, c = Callback.metricCompute nm mid) :=
  ⟨rfl, tracker_registered_after_metric_computes (DynVal.device "cpu")
    (DynVal.int 2) false (DynVal.dataLoader [3])
    (MetricsArg.dict [("acc", 0), ("loss", 1)]) none none
    trackerDemoWorkflow rfl⟩

/-- C8: the handler attach-call log equals the handler sequence passed at
construction, in order (`[]` when the argument is `None`); and passing
`None` or the empty sequence is valid — it yields the very same outcome as
any other handler argument, apart from the (then empty) attach log. -/
theorem handlers_attached_in_order (device me : DynVal) (amp : Bool)
    (dl : DynVal) (km am : Option MetricsArg) (hs : Option (List Nat)) :
    ((Workflow.init device me amp dl km am hs).map Workflow.handler_attach_log
      = (Workflow.init device me amp dl km am hs).map (fun _ => hs.getD [])) ∧
    ((Workflow.init device me amp dl km am none).map
        (fun w => { w with handler_attach_log := [] })
      = (Workflow.init device me amp dl km am hs).map
        (fun w => { w with handler_attach_log := [] })) ∧
    ((Workflow.init device me amp dl km am (some [])).map
        (fun w => { w with handler_attach_log := [] })
      = (Workflow.init device me amp dl km am hs).map
        (fun w => { w with handler_attach_log := [] })) := by
  rcases device with d | n | bl | t <;> try exact ⟨rfl, rfl, rfl⟩
  rcases me with d2 | n2 | bl2 | t2 <;> try exact ⟨rfl, rfl, rfl⟩
  rcases dl with d3 | n3 | bl3 | t3 <;> try exact ⟨rfl, rfl, rfl⟩
  rcases km with _ | km <;> try exact ⟨rfl, rfl, rfl⟩
  rcases km with entries | ⟨tag, len⟩ <;> try exact ⟨rfl, rfl, rfl⟩
  rcases entries with _ | ⟨⟨k0, m0⟩, tlE⟩ <;> try exact ⟨rfl, rfl, rfl⟩
  rcases am with _ | ma <;> try exact ⟨rfl, rfl, rfl⟩
  rcases ma with aes | ⟨tag2, len2⟩ <;> try exact ⟨rfl, rfl, rfl⟩
  rcases len2 with _ | len3 <;> exact ⟨rfl, rfl, rfl⟩

/-- C10: with `key_metric = None`, any supplied `additional_metrics` are
silently ignored: construction succeeds whatever that argument is, no
metric is attached, `key_metric_name` stays `None`, and no callback at all
(in particular no best-metric tracker) is registered on `EPOCH_COMPLETED`. -/
theorem no_key_metric_disables_metric_machinery (d : String) (n : Int)
    (amp : Bool) (l : List Nat) (am : Option MetricsArg)
    (hs : Option (List Nat)) :
    ∃ w, Workflow.init (DynVal.device d) (DynVal.int n) amp
        (DynVal.dataLoader l) none am hs = Except.ok w ∧
      w.attached_metrics = [] ∧
      w.engine.state.key_metric_name = none ∧
      w.engine.iteration_completed_cbs = [] ∧
      w.engine.epoch_completed_cbs = [] :=
  ⟨_, rfl, rfl, rfl, rfl, rfl⟩

/-! ### Epoch-length preservation through the run loop (for C2) -/

theorem iterLoop_epoch_length (it : RunState → Nat → RunState)
    (hit : ∀ s b, (it s b).epoch_length = s.epoch_length) :
    ∀ (bs : List Nat) (s : RunState),
      (iterLoop it s bs).1.epoch_length = s.epoch_length ∧
      ∀ p ∈ (iterLoop it s bs).2, p.2.epoch_length = s.epoch_length := by
  intro bs
  induction bs with
  | nil =>
    intro s
    exact ⟨rfl, by intro p hp; simp [iterLoop] at hp⟩
  | cons b rest ih =>
    intro s
    refine ⟨?_, ?_⟩
    · show (iterLoop it (it s b) rest).1.epoch_length = s.epoch_length
      rw [(ih (it s b)).1, hit s b]
    · intro p hp
      simp only [iterLoop, List.mem_cons] at hp
      rcases hp with rfl | rfl | hp
      · rfl
      · exact hit s b
      · rw [(ih (it s b)).2 p hp, hit s b]

theorem epochTrace_epoch_length (it : RunState → Nat → RunState)
    (hit : ∀ s b, (it s b).epoch_length = s.epoch_length) (s : RunState)
    (batches : List Nat) :
    (epochTrace it s batches).1.epoch_length = s.epoch_length ∧
    ∀ p ∈ (epochTrace it s batches).2, p.2.epoch_length = s.epoch_length := by
  have h1 := iterLoop_epoch_length it hit batches { s with epoch := s.epoch + 1 }
  refine ⟨h1.1, ?_⟩
  intro p hp
  simp only [epochTrace, List.mem_cons, List.mem_append, List.mem_singleton,
    List.not_mem_nil, or_false] at hp
  rcases hp with rfl | hp | rfl
  · rfl
  · exact h1.2 p hp
  · exact h1.1

theorem epochLoop_epoch_length (it : RunState → Nat → RunState)
    (hit : ∀ s b, (it s b).epoch_length = s.epoch_length) (data : List Nat) :
    ∀ (n : Nat) (s : RunState),
      (epochLoop it data n s).1.epoch_length = s.epoch_length ∧
      ∀ p ∈ (epochLoop it data n s).2, p.2.epoch_length = s.epoch_length := by
  intro n
  induction n with
  | zero =>
    intro s
    exact ⟨rfl, by intro p hp; simp [epochLoop] at hp⟩
  | succ n ih =>
    intro s
    have hE := epochTrace_epoch_length it hit s data
    have hL := ih (epochTrace it s data).1
    refine ⟨?_, ?_⟩
    · show (epochLoop it data n (epochTrace it s data).1).1.epoch_length = _
      rw [hL.1, hE.1]
    · intro p hp
      simp only [epochLoop, List.mem_append] at hp
      rcases hp with hp | hp
      · exact hE.2 p hp
      · rw [hL.2 p hp, hE.1]

/-- C2: for every run, the trace opens with `STARTED` fired on a state whose
`iteration` has been reset to 0 and whose `epoch_length` already equals the
data source's declared length; and every `STARTED`/`EPOCH_STARTED` firing in
the whole trace sees that same concrete non-negative `epoch_length`
(provided the abstract iteration operation does not rewrite the
`epoch_length` field). -/
theorem run_resets_iteration_and_resolves_epoch_length (w : Workflow)
    (it : RunState → Nat → RunState)
    (hit : ∀ s b, (it s b).epoch_length = s.epoch_length) :
    ((Workflow.run w it).head?.map
        (fun p => (p.1, p.2.iteration, p.2.epoch_length)) =
      some (Event.STARTED, 0, Int.ofNat w.data_loader.length)) ∧
    ∀ p ∈ Workflow.run w it,
      p.1 = Event.STARTED ∨ p.1 = Event.EPOCH_STARTED →
        p.2.epoch_length = Int.ofNat w.data_loader.length ∧
        0 ≤ p.2.epoch_length := by
  refine ⟨rfl, ?_⟩
  intro p hp hev
  have hL := epochLoop_epoch_length it hit w.data_loader
    ({ { w.engine.state with iteration := 0 } with
        epoch_length := Int.ofNat w.data_loader.length }).max_epochs.toNat
    { { w.engine.state with iteration := 0 } with
        epoch_length := Int.ofNat w.data_loader.length }
  have key : p.2.epoch_length = Int.ofNat w.data_loader.length := by
    simp only [Workflow.run, engineRun, List.mem_cons, List.mem_append,
      List.mem_singleton, List.not_mem_nil, or_false] at hp
    rcases hp with rfl | hp | rfl
    · rfl
    · exact hL.2 p hp
    · exact hL.1
  exact ⟨key, by rw [key]; exact Int.ofNat_nonneg _⟩

theorem run_resets_iteration_and_resolves_epoch_length_witness :
    (∀ (s : RunState) (b : Nat), (demoIt s b).epoch_length = s.epoch_length) ∧
    (((Workflow.run demoWorkflow demoIt).head?.map
        (fun p => (p.1, p.2.iteration, p.2.epoch_length)) =
      some (Event.STARTED, 0, Int.ofNat demoWorkflow.data_loader.length)) ∧
    ∀ p ∈ Workflow.run demoWorkflow demoIt,
      p.1 = Event.STARTED ∨ p.1 = Event.EPOCH_STARTED →
        p.2.epoch_length = Int.ofNat demoWorkflow.data_loader.length ∧
        0 ≤ p.2.epoch_length) :=
  ⟨fun _ _ => rfl,
    run_resets_iteration_and_resolves_epoch_length demoWorkflow demoIt
      (fun _ _ => rfl)⟩

/-! ### The `amp` flag (C9) -/

/-- C9 counterexample: two constructions identical except for `amp` do not
behave identically apart from the stored `RunState.amp` field — with
`amp = True` the constructor prints an informational message
(`if amp: print(...)`), so the observable construction output differs. -/
theorem amp_affects_construction_output :
    (Workflow.init (DynVal.device "cuda") (DynVal.int 1) true
        (DynVal.dataLoader []) none none none).map Workflow.printed =
      Except.ok [ampMsg] ∧
    (Workflow.init (DynVal.device "cuda") (DynVal.int 1) false
        (DynVal.dataLoader []) none none none).map Workflow.printed =
      Except.ok ([] : List String) ∧
    ([ampMsg] : List String) ≠ [] :=
  ⟨rfl, rfl, by simp⟩

/-- Attaching a whole metric set appends exactly its `update` callbacks, in
order, to `ITERATION_COMPLETED`. -/
theorem attach_foldl_iter_cbs (ms : List (String × Nat)) (e : Engine) :
    (ms.foldl (fun e p => Metric.attach e p.1 p.2) e).iteration_completed_cbs =
      e.iteration_completed_cbs ++
        ms.map (fun p => Callback.metricUpdate p.1 p.2) := by
  rw [attach_foldl_eq]

theorem iterLoop_setAmpFalse (it : RunState → Nat → RunState)
    (hit : ∀ s b, it s.setAmpFalse b = (it s b).setAmpFalse) :
    ∀ (bs : List Nat) (s : RunState),
      iterLoop it s.setAmpFalse bs =
        ((iterLoop it s bs).1.setAmpFalse,
          (iterLoop it s bs).2.map (fun p => (p.1, p.2.setAmpFalse))) := by
  intro bs
  induction bs with
  | nil => intro s; rfl
  | cons b rest ih =>
    intro s
    simp only [iterLoop, List.map_cons]
    rw [hit s b, ih (it s b)]

theorem epochTrace_setAmpFalse (it : RunState → Nat → RunState)
    (hit : ∀ s b, it s.setAmpFalse b = (it s b).setAmpFalse) (s : RunState)
    (batches : List Nat) :
    epochTrace it s.setAmpFalse batches =
      ((epochTrace it s batches).1.setAmpFalse,
        (epochTrace it s batches).2.map (fun p => (p.1, p.2.setAmpFalse))) := by
  have hs1 : ({ s.setAmpFalse with epoch := s.setAmpFalse.epoch + 1 } : RunState)
      = ({ s with epoch := s.epoch + 1 } : RunState).setAmpFalse := rfl
  simp only [epochTrace, List.map_cons, List.map_append]
  rw [hs1, iterLoop_setAmpFalse it hit batches { s with epoch := s.epoch + 1 }]
  rfl

theorem epochLoop_setAmpFalse (it : RunState → Nat → RunState)
    (hit : ∀ s b, it s.setAmpFalse b = (it s b).setAmpFalse)
    (data : List Nat) :
    ∀ (n : Nat) (s : RunState),
      epochLoop it data n s.setAmpFalse =
        ((epochLoop it data n s).1.setAmpFalse,
          (epochLoop it data n s).2.map (fun p => (p.1, p.2.setAmpFalse))) := by
  intro n
  induction n with
  | zero => intro s; rfl
  | succ n ih =>
    intro s
    simp only [epochLoop, List.map_append]
    rw [epochTrace_setAmpFalse it hit s data]
    dsimp only
    rw [ih (epochTrace it s data).1]

theorem engineRun_setAmpFalse (it : RunState → Nat → RunState)
    (hit : ∀ s b, it s.setAmpFalse b = (it s b).setAmpFalse) (s : RunState)
    (data : List Nat) (el : Int) :
    engineRun it s.setAmpFalse data el =
      (engineRun it s data el).map (fun p => (p.1, p.2.setAmpFalse)) := by
  have h0 : ({ s.setAmpFalse with epoch_length := el } : RunState)
      = ({ s with epoch_length := el } : RunState).setAmpFalse := rfl
  simp only [engineRun, List.map_cons, List.map_append]
  rw [h0]
  have h1 : s.setAmpFalse.max_epochs.toNat = s.max_epochs.toNat := rfl
  rw [h1, epochLoop_setAmpFalse it hit data s.max_epochs.toNat
    { s with epoch_length := el }]
  rfl

/-- C9 amended: the `amp` flag has no behavioral effect apart from being
stored in `RunState.amp` and, when set, one informational console line
printed at construction: erasing those two observables makes constructions
with `amp = True` and `amp = False` identical; and during `run()` the
stored flag is merely carried along — clearing it in the start state yields
the identical event trace up to that stored field, provided the abstract
iteration operation does not itself read `amp`. -/
theorem amp_effect_limited_to_state_and_print :
    (∀ (device me dl : DynVal) (km am : Option MetricsArg)
        (hs : Option (List Nat)),
      (Workflow.init device me true dl km am hs).map Workflow.stripAmpEffects
        = (Workflow.init device me false dl km am hs).map
            Workflow.stripAmpEffects) ∧
    (∀ (w : Workflow) (it : RunState → Nat → RunState),
      (∀ s b, it s.setAmpFalse b = (it s b).setAmpFalse) →
      Workflow.run w.stripAmpEffects it =
        (Workflow.run w it).map (fun p => (p.1, p.2.setAmpFalse))) := by
  constructor
  · intro device me dl km am hs
    rcases device with d | n | bl | t <;> try rfl
    rcases me with d2 | n2 | bl2 | t2 <;> try rfl
    rcases dl with d3 | n3 | bl3 | t3 <;> try rfl
    rcases km with _ | (entries | ⟨tag, len⟩) <;> try rfl
    rcases entries with _ | ⟨⟨k0, m0⟩, tlE⟩ <;> try rfl
    rcases am with _ | (aes | ⟨tag2, len2⟩)
    · simp only [Workflow.init, Except.map, Workflow.stripAmpEffects,
        RunState.setAmpFalse, attach_foldl_state, attach_foldl_iter_cbs,
        attach_foldl_epoch_cbs]
    · simp only [Workflow.init, Except.map, Workflow.stripAmpEffects,
        RunState.setAmpFalse, attach_foldl_state, attach_foldl_iter_cbs,
        attach_foldl_epoch_cbs]
    · rcases len2 with _ | len3
      · simp only [Workflow.init, Except.map, Workflow.stripAmpEffects,
          RunState.setAmpFalse, attach_foldl_state, attach_foldl_iter_cbs,
          attach_foldl_epoch_cbs]
      · rfl
  · intro w it hit
    show engineRun it ({ w.engine.state with iteration := 0 } : RunState).setAmpFalse
      w.data_loader (Int.ofNat w.data_loader.length) = _
    rw [engineRun_setAmpFalse it hit]
    rfl

theorem amp_effect_limited_to_state_and_print_witness :
    (∀ (s : RunState) (b : Nat),
      demoIt s.setAmpFalse b = (demoIt s b).setAmpFalse) ∧
    Workflow.run demoWorkflow.stripAmpEffects demoIt =
      (Workflow.run demoWorkflow demoIt).map
        (fun p => (p.1, p.2.setAmpFalse)) :=
  ⟨fun _ _ => rfl,
    amp_effect_limited_to_state_and_print.2 demoWorkflow demoIt
      (fun _ _ => rfl)⟩

end MonaiWorkflow
